import Mathlib

/-!
# Direct-path connection wrapper of `detour` (direct_conn.go)

A shallow embedding of `DialDirect`, `checkFirstRead`, `checkFollowupRead`,
`directConn.doRead` and `directConn.Close`.  Each goroutine body is embedded as a
state-passing function: the whitelist, the shared channel `DirectAddrCh` and the
connection record are threaded explicitly, and everything the network supplies
(dial result, transport read result) is an argument.
-/

set_option linter.unusedVariables false

namespace Detour

/-! ## Data model -/

/-- Go `error` values as the classifiers see them: the sentinel `io.EOF`, a value
built by `fmt.Errorf` (carrying its message), or any other error value produced by
the dialer or the transport (identified by a code). A Go `error` that may be `nil`
is an `Option GoError`. -/
inductive GoError where
  | EOF
  | errorf (msg : String)
  | other (code : Nat)
  deriving DecidableEq, Repr

/-- One byte of a Go `[]byte`. -/
abbrev Byte := Fin 256

/-- The two's-complement width of the `readBytes` field (`uint64`). -/
def uint64Mod : Nat := 2 ^ 64

/-- Go conversion `uint64(n)` of an `int`: reduction modulo `2^64`. -/
def uint64 (n : Int) : Nat := (n % (uint64Mod : Int)).toNat

/-- Go `atomic.AddUint64(&x, d)`: wrapping addition on a `uint64`. -/
def AddUint64 (x d : Nat) : Nat := (x + d) % uint64Mod

/-- The embedded `net.Conn`: an identity and the number of `Close` calls it has
received (the transport is closed as soon as that number is positive). -/
structure NetConn where
  id : Nat
  closeCalls : Nat
  deriving DecidableEq, Repr

/-- The call `conn.Close()` on the transport; its returned error is ignored by
every caller in direct_conn.go. -/
def NetConn.Close (c : NetConn) : NetConn := { c with closeCalls := c.closeCalls + 1 }

/-- The predicate "the transport has been closed". -/
def NetConn.closed (c : NetConn) : Bool := decide (0 < c.closeCalls)

/-- The detection capability loaded from `blockDetector`: the three checks the
file calls. Their implementation lives outside direct_conn.go, so they are fields. -/
structure Detector where
  DNSPoisoned : NetConn → Bool
  TamperingSuspected : GoError → Bool
  FakeResponse : List Byte → Bool

/-- The whitelist store as this file drives it: the sequence of `AddToWl` calls,
oldest first, each with the address and the boolean argument. -/
abbrev Whitelist := List (String × Bool)

/-- Modelled from the spec: the body of `AddToWl` is not in direct_conn.go; the
spec gives the whitelist contract `add(address, flag)`, which is recorded here as
one more entry of the store. -/
def AddToWl (addr : String) (flag : Bool) (wl : Whitelist) : Whitelist :=
  wl ++ [(addr, flag)]

/-- The type of the query `wlTemporarily`, whose body is not in direct_conn.go: it
is a parameter of every operation that calls it. -/
abbrev WlQuery := Whitelist → String → Bool

/-- Modelled from the spec: the whitelist query `isTemporarilyFlagged(address)`,
with the boolean of `add(address, temporary)` read as the spec reads it: the most
recent entry for the address decides, and an absent address is not flagged. -/
def wlTemporarilySpec : WlQuery := fun wl addr =>
  match wl.reverse.find? (fun e => e.1 == addr) with
  | some e => e.2
  | none => false

/-- The state of a Go `chan string` that is never closed: `isNil` for the nil
channel, buffer capacity and contents, the number of receivers currently blocked
on it, the values already handed to receivers, and a log of every non-blocking
send that was executed on it (whether or not it went through). -/
structure Chan where
  isNil : Bool
  cap : Nat
  buf : List String
  recvWaiting : Nat
  received : List String
  attempts : List String
  deriving DecidableEq, Repr

/-- The values that have been sent on the channel so far (handed over or queued). -/
def Chan.sent (c : Chan) : List String := c.received ++ c.buf

/-- The statement `select { case ch <- v: default: }`: the send goes through when
a receiver is blocked on the channel or the buffer has room, and is dropped
otherwise (always on a nil channel). -/
def Chan.trySend (c : Chan) (v : String) : Chan :=
  let c1 := { c with attempts := c.attempts ++ [v] }
  if c.isNil then c1
  else if 0 < c.recvWaiting then
    { c1 with recvWaiting := c.recvWaiting - 1, received := c.received ++ [v] }
  else if c.buf.length < c.cap then { c1 with buf := c.buf ++ [v] }
  else c1

/-- The process-wide state that direct_conn.go reads and writes: the whitelist
store and the shared channel `DirectAddrCh`. -/
structure World where
  whitelist : Whitelist
  DirectAddrCh : Chan
  deriving DecidableEq, Repr

/-- The struct `directConn`: the embedded transport, the address and the
cumulative `uint64` byte counter. -/
structure directConn where
  Conn : NetConn
  addr : String
  readBytes : Nat
  deriving DecidableEq, Repr

/-- The struct `ioResult{n, err, dc}` sent on the caller's result channel. -/
structure ioResult where
  n : Int
  err : Option GoError
  conn : directConn
  deriving DecidableEq, Repr

/-- What `net.DialTimeout` returns: a connection with a nil error, or an error. -/
inductive DialResult where
  | ok (conn : NetConn)
  | failed (err : GoError)
  deriving DecidableEq, Repr

/-- What `dc.Conn.Read(b)` returns, together with the contents of the caller's
buffer `b` after the call: `n` is the reported byte count (Go `int`). -/
structure TransportRead where
  b : List Byte
  n : Int
  err : Option GoError

/-- The contract of `io.Reader` for one read result: `0 <= n <= len(b)`. -/
def TransportRead.valid (rd : TransportRead) : Prop :=
  0 ≤ rd.n ∧ rd.n ≤ (rd.b.length : Int)

/-! ## Operations -/

/-- The goroutine body of `DialDirect`: `dial` stands for `net.DialTimeout` with
the fixed timeout, `detector` for the value loaded from `blockDetector`; `ch` is
the list of connections sent on the success channel so far. Returns the channel,
the whitelist and, when the dial succeeded, the transport after the call. -/
def DialDirect (dial : String → String → DialResult) (detector : Detector)
    (network addr : String) (ch : List directConn) (wl : Whitelist) :
    List directConn × Whitelist × Option NetConn :=
  match dial network addr with
  | .ok conn =>
    if detector.DNSPoisoned conn then
      (ch, AddToWl addr false wl, some conn.Close)
    else
      (ch ++ [{ Conn := conn, addr := addr, readBytes := 0 }], wl, some conn)
  | .failed err =>
    if detector.TamperingSuspected err then (ch, wl, none)
    else (ch, wl, none)

/-- The type `readChecker`, with the loaded detector and the whitelist explicit. -/
abbrev readChecker :=
  Detector → List Byte → Int → Option GoError → String → Whitelist → Option GoError × Whitelist

/-- The function `checkFirstRead`. -/
def checkFirstRead : readChecker := fun detector b n err addr wl =>
  match err with
  | none =>
    if !detector.FakeResponse b then (none, wl)
    else (some (GoError.errorf "response is hijacked"), AddToWl addr false wl)
  | some e =>
    if e = GoError.EOF then (some e, wl)
    else if detector.TamperingSuspected e then (some e, AddToWl addr false wl)
    else (some e, wl)

/-- The function `checkFollowupRead`. -/
def checkFollowupRead : readChecker := fun detector b n err addr wl =>
  match err with
  | some e =>
    if e = GoError.EOF then (some e, wl)
    else if detector.TamperingSuspected e then (some e, AddToWl addr false wl)
    else (some e, wl)
  | none =>
    if detector.FakeResponse b then
      (some (GoError.errorf "content hijacked"), AddToWl addr false wl)
    else (none, wl)

/-- The method `directConn.Close`: close the transport, then, when the counter is
positive and the address is not temporarily flagged, one non-blocking send of the
address on `DirectAddrCh`. -/
def directConn.Close (wlTemporarily : WlQuery) (dc : directConn) (w : World) :
    directConn × World :=
  let dc1 := { dc with Conn := dc.Conn.Close }
  if decide (0 < dc1.readBytes) && !wlTemporarily w.whitelist dc1.addr then
    (dc1, { w with DirectAddrCh := w.DirectAddrCh.trySend dc1.addr })
  else (dc1, w)

/-- The goroutine body of `directConn.doRead`: `rd` is what `dc.Conn.Read(b)`
returned; the result is the `ioResult` sent on the caller's channel and the
world afterwards. -/
def directConn.doRead (wlTemporarily : WlQuery) (detector : Detector)
    (checker : readChecker) (dc : directConn) (rd : TransportRead) (w : World) :
    ioResult × World :=
  match checker detector rd.b rd.n rd.err dc.addr w.whitelist with
  | (some e, wl1) =>
    let r := dc.Close wlTemporarily { w with whitelist := wl1 }
    ({ n := 0, err := some e, conn := r.1 }, r.2)
  | (none, wl1) =>
    ({ n := rd.n, err := none,
       conn := { dc with readBytes := AddUint64 dc.readBytes (uint64 rd.n) } },
     { w with whitelist := wl1 })

/-- The method `directConn.FirstRead`. -/
def directConn.FirstRead (wlTemporarily : WlQuery) (detector : Detector)
    (dc : directConn) (rd : TransportRead) (w : World) : ioResult × World :=
  dc.doRead wlTemporarily detector checkFirstRead rd w

/-- The method `directConn.FollowupRead`. -/
def directConn.FollowupRead (wlTemporarily : WlQuery) (detector : Detector)
    (dc : directConn) (rd : TransportRead) (w : World) : ioResult × World :=
  dc.doRead wlTemporarily detector checkFollowupRead rd w

/-! ## Sequences of reads on one connection -/

/-- Which of the two read methods a caller invoked. -/
inductive ReadKind where
  | first
  | followup
  deriving DecidableEq, Repr

/-- The classifier each read method passes to `doRead`. -/
def ReadKind.checker : ReadKind → readChecker
  | .first => checkFirstRead
  | .followup => checkFollowupRead

/-- One read request on a connection: the method called, the detector installed
when the classifier loads it, and what the transport returned. -/
structure ReadEvent where
  kind : ReadKind
  detector : Detector
  rd : TransportRead

/-- The classification of one read event, as `doRead` runs it. -/
def ReadEvent.classify (ev : ReadEvent) (addr : String) (wl : Whitelist) :
    Option GoError × Whitelist :=
  ev.kind.checker ev.detector ev.rd.b ev.rd.n ev.rd.err addr wl

/-- One read request executed on a connection. -/
def directConn.read (wlTemporarily : WlQuery) (dc : directConn) (ev : ReadEvent)
    (w : World) : ioResult × World :=
  dc.doRead wlTemporarily ev.detector ev.kind.checker ev.rd w

/-- A sequence of read requests executed one after the other on the connection. -/
def runReads (wlTemporarily : WlQuery) :
    List ReadEvent → directConn → World → directConn × World
  | [], dc, w => (dc, w)
  | ev :: evs, dc, w =>
    let r := dc.read wlTemporarily ev w
    runReads wlTemporarily evs r.1.conn r.2

/-- The sum of the byte counts `n` of the reads of the sequence whose
classification returned no error. -/
def acceptedSum (wlTemporarily : WlQuery) :
    List ReadEvent → directConn → World → Int
  | [], _, _ => 0
  | ev :: evs, dc, w =>
    let r := dc.read wlTemporarily ev w
    (if (ev.classify dc.addr w.whitelist).1 = none then ev.rd.n else 0)
      + acceptedSum wlTemporarily evs r.1.conn r.2

/-- The value of the byte counter before the sequence and after each of its reads. -/
def counterTrace (wlTemporarily : WlQuery) :
    List ReadEvent → directConn → World → List Nat
  | [], dc, _ => [dc.readBytes]
  | ev :: evs, dc, w =>
    let r := dc.read wlTemporarily ev w
    dc.readBytes :: counterTrace wlTemporarily evs r.1.conn r.2

/-! ## Concrete values used by the examples -/

/-- A detector that flags nothing. -/
def cleanDetector : Detector :=
  { DNSPoisoned := fun _ => false
    TamperingSuspected := fun _ => false
    FakeResponse := fun _ => false }

/-- A detector that flags every connection, every error and every payload. -/
def alarmDetector : Detector :=
  { DNSPoisoned := fun _ => true
    TamperingSuspected := fun _ => true
    FakeResponse := fun _ => true }

/-- A detector whose forged-response rule looks for the marker byte `0x58`
anywhere in the slice it is handed. -/
def markerDetector : Detector :=
  { DNSPoisoned := fun _ => false
    TamperingSuspected := fun _ => false
    FakeResponse := fun b => b.contains (0x58 : Byte) }

/-- A freshly dialled transport. -/
def conn0 : NetConn := { id := 1, closeCalls := 0 }

/-- A connection as `DialDirect` delivers it. -/
def dc0 : directConn := { Conn := conn0, addr := "example.com:80", readBytes := 0 }

/-- A connection that has already read 512 clean bytes. -/
def dc512 : directConn := { Conn := conn0, addr := "example.com:80", readBytes := 512 }

/-- An unbuffered channel with `k` receivers blocked on it. -/
def listeningChan (k : Nat) : Chan :=
  { isNil := false, cap := 0, buf := [], recvWaiting := k, received := [], attempts := [] }

/-- An empty whitelist and an unbuffered `DirectAddrCh` with `k` blocked receivers. -/
def world0 (k : Nat) : World := { whitelist := [], DirectAddrCh := listeningChan k }

/-- A transport read that filled a 512-byte buffer. -/
def read512 : TransportRead := { b := List.replicate 512 (0 : Byte), n := 512, err := none }

/-- A transport read that returned end of stream. -/
def readEOF : TransportRead := { b := [], n := 0, err := some GoError.EOF }

/-- A clean first read of 512 bytes. -/
def ev512 : ReadEvent := { kind := .first, detector := cleanDetector, rd := read512 }

/-- A clean follow-up read that filled a buffer of one GiB. -/
def evGiB : ReadEvent :=
  { kind := .followup, detector := cleanDetector,
    rd := { b := List.replicate (2 ^ 30) (0 : Byte), n := 2 ^ 30, err := none } }

/-- Two calls of `Close`, one after the other, on the same connection. -/
def closeTwice (wlTemporarily : WlQuery) (dc : directConn) (w : World) :
    directConn × World :=
  let r := dc.Close wlTemporarily w
  r.1.Close wlTemporarily r.2

/-- A two-byte buffer whose first byte was just received and whose second byte,
left over from an earlier use of the buffer, is the marker `0x58`. -/
def bufStaleMarker : List Byte := [0x41, 0x58]

/-- A two-byte buffer with the same first byte and a zero second byte. -/
def bufStaleZero : List Byte := [0x41, 0x00]

/-! ## Basic facts -/

/-- Recording a call in the whitelist store always changes the store. -/
theorem AddToWl_ne (addr : String) (flag : Bool) (wl : Whitelist) :
    AddToWl addr flag wl ≠ wl := by
  intro h
  have hlen := congrArg List.length h
  simp [AddToWl] at hlen

/-- Appending one element to a list gives a different list. -/
theorem append_singleton_ne {α : Type} (l : List α) (a : α) : l ++ [a] ≠ l := by
  intro h
  have hlen := congrArg List.length h
  simp at hlen

/-- A transport is closed after a `Close` call. -/
theorem NetConn.closed_Close (c : NetConn) : c.Close.closed = true := by
  simp [NetConn.Close, NetConn.closed]

/-- The method `Close` never touches the byte counter, the address or the whitelist. -/
theorem Close_frame (wlT : WlQuery) (dc : directConn) (w : World) :
    (dc.Close wlT w).1 = { dc with Conn := dc.Conn.Close } ∧
    (dc.Close wlT w).2.whitelist = w.whitelist := by
  simp only [directConn.Close]
  split <;> simp

/-- The channel after `Close`: one non-blocking send when the counter is positive
and the address is not temporarily flagged, untouched otherwise. -/
theorem Close_channel (wlT : WlQuery) (dc : directConn) (w : World) :
    ((0 < dc.readBytes ∧ wlT w.whitelist dc.addr = false) →
      (dc.Close wlT w).2.DirectAddrCh = w.DirectAddrCh.trySend dc.addr) ∧
    (¬ (0 < dc.readBytes ∧ wlT w.whitelist dc.addr = false) →
      (dc.Close wlT w).2.DirectAddrCh = w.DirectAddrCh) := by
  constructor
  · intro h
    simp [directConn.Close, h.1, h.2]
  · intro h
    simp only [directConn.Close]
    split
    · rename_i hc
      simp at hc
      exact absurd hc h
    · rfl

/-! ## The read classifiers -/

/-- Claim C1. On a first read whose transport read succeeded and whose buffer the
detector's `FakeResponse` flags, `checkFirstRead` fails with "response is hijacked"
and records `AddToWl(addr, false)`; `doRead` then reports zero bytes with that
failure, has closed the transport, and leaves the byte counter as it was (so it is
still 0 on the first read of a connection). -/
theorem C1_first_read_forged (wlT : WlQuery) (detector : Detector) (dc : directConn)
    (rd : TransportRead) (w : World)
    (herr : rd.err = none) (hfake : detector.FakeResponse rd.b = true) :
    checkFirstRead detector rd.b rd.n rd.err dc.addr w.whitelist
      = (some (GoError.errorf "response is hijacked"), AddToWl dc.addr false w.whitelist) ∧
    (dc.FirstRead wlT detector rd w).1.n = 0 ∧
    (dc.FirstRead wlT detector rd w).1.err = some (GoError.errorf "response is hijacked") ∧
    (dc.FirstRead wlT detector rd w).1.conn.Conn = dc.Conn.Close ∧
    (dc.FirstRead wlT detector rd w).1.conn.Conn.closed = true ∧
    (dc.FirstRead wlT detector rd w).1.conn.readBytes = dc.readBytes ∧
    (dc.FirstRead wlT detector rd w).2.whitelist = AddToWl dc.addr false w.whitelist ∧
    (dc.readBytes = 0 → (dc.FirstRead wlT detector rd w).1.conn.readBytes = 0) := by
  have hc : checkFirstRead detector rd.b rd.n rd.err dc.addr w.whitelist
      = (some (GoError.errorf "response is hijacked"), AddToWl dc.addr false w.whitelist) := by
    simp [checkFirstRead, herr, hfake]
  have hcl := Close_frame wlT dc { w with whitelist := AddToWl dc.addr false w.whitelist }
  have hfr : dc.FirstRead wlT detector rd w
      = ({ n := 0, err := some (GoError.errorf "response is hijacked"),
           conn := (dc.Close wlT { w with whitelist := AddToWl dc.addr false w.whitelist }).1 },
         (dc.Close wlT { w with whitelist := AddToWl dc.addr false w.whitelist }).2) := by
    simp only [directConn.FirstRead, directConn.doRead, hc]
  refine ⟨hc, ?_⟩
  rw [hfr, hcl.1]
  exact ⟨rfl, rfl, rfl, NetConn.closed_Close _, rfl, hcl.2, fun h => h⟩

/-- A concrete instance of claim C1: a flagged 512-byte first read on a fresh
connection. -/
theorem C1_first_read_forged_witness :
    checkFirstRead alarmDetector read512.b read512.n read512.err dc0.addr (world0 1).whitelist
      = (some (GoError.errorf "response is hijacked"),
          AddToWl dc0.addr false (world0 1).whitelist) ∧
    (dc0.FirstRead wlTemporarilySpec alarmDetector read512 (world0 1)).1.n = 0 ∧
    (dc0.FirstRead wlTemporarilySpec alarmDetector read512 (world0 1)).1.err
      = some (GoError.errorf "response is hijacked") ∧
    (dc0.FirstRead wlTemporarilySpec alarmDetector read512 (world0 1)).1.conn.Conn
      = dc0.Conn.Close ∧
    (dc0.FirstRead wlTemporarilySpec alarmDetector read512 (world0 1)).1.conn.Conn.closed
      = true ∧
    (dc0.FirstRead wlTemporarilySpec alarmDetector read512 (world0 1)).1.conn.readBytes
      = dc0.readBytes ∧
    (dc0.FirstRead wlTemporarilySpec alarmDetector read512 (world0 1)).2.whitelist
      = AddToWl dc0.addr false (world0 1).whitelist ∧
    (dc0.readBytes = 0 →
      (dc0.FirstRead wlTemporarilySpec alarmDetector read512 (world0 1)).1.conn.readBytes = 0) :=
  C1_first_read_forged wlTemporarilySpec alarmDetector dc0 read512 (world0 1) rfl rfl

/-- Claim C4. When the transport read returns `io.EOF`, both classifiers return
exactly `io.EOF` and leave the whitelist untouched, whatever the installed
detector answers. -/
theorem C4_eof_passthrough (detector : Detector) (b : List Byte) (n : Int)
    (addr : String) (wl : Whitelist) :
    checkFirstRead detector b n (some GoError.EOF) addr wl = (some GoError.EOF, wl) ∧
    checkFollowupRead detector b n (some GoError.EOF) addr wl = (some GoError.EOF, wl) := by
  simp [checkFirstRead, checkFollowupRead]

/-- Claim C8. When the transport read fails with an error other than `io.EOF`, both
classifiers return that same error, and the whitelist gains `AddToWl(addr, false)`
exactly when `TamperingSuspected(err)` holds; otherwise it is untouched. -/
theorem C8_read_error (detector : Detector) (b : List Byte) (n : Int) (e : GoError)
    (addr : String) (wl : Whitelist) (hne : e ≠ GoError.EOF) :
    (checkFirstRead detector b n (some e) addr wl).1 = some e ∧
    (checkFollowupRead detector b n (some e) addr wl).1 = some e ∧
    ((checkFirstRead detector b n (some e) addr wl).2 = AddToWl addr false wl
      ↔ detector.TamperingSuspected e = true) ∧
    ((checkFollowupRead detector b n (some e) addr wl).2 = AddToWl addr false wl
      ↔ detector.TamperingSuspected e = true) ∧
    ((checkFirstRead detector b n (some e) addr wl).2 = wl
      ↔ detector.TamperingSuspected e = false) ∧
    ((checkFollowupRead detector b n (some e) addr wl).2 = wl
      ↔ detector.TamperingSuspected e = false) := by
  have h1 := AddToWl_ne addr false wl
  cases ht : detector.TamperingSuspected e <;>
    simp [checkFirstRead, checkFollowupRead, hne, ht, h1, Ne.symm h1]

/-- A concrete instance of claim C8: a connection reset judged as tampering. -/
theorem C8_read_error_witness :
    (checkFirstRead alarmDetector [] 0 (some (GoError.other 104)) "example.com:80" []).1
      = some (GoError.other 104) ∧
    (checkFollowupRead alarmDetector [] 0 (some (GoError.other 104)) "example.com:80" []).1
      = some (GoError.other 104) ∧
    ((checkFirstRead alarmDetector [] 0 (some (GoError.other 104)) "example.com:80" []).2
        = AddToWl "example.com:80" false []
      ↔ alarmDetector.TamperingSuspected (GoError.other 104) = true) ∧
    ((checkFollowupRead alarmDetector [] 0 (some (GoError.other 104)) "example.com:80" []).2
        = AddToWl "example.com:80" false []
      ↔ alarmDetector.TamperingSuspected (GoError.other 104) = true) ∧
    ((checkFirstRead alarmDetector [] 0 (some (GoError.other 104)) "example.com:80" []).2 = []
      ↔ alarmDetector.TamperingSuspected (GoError.other 104) = false) ∧
    ((checkFollowupRead alarmDetector [] 0 (some (GoError.other 104)) "example.com:80" []).2 = []
      ↔ alarmDetector.TamperingSuspected (GoError.other 104) = false) :=
  C8_read_error alarmDetector [] 0 (GoError.other 104) "example.com:80" [] (by decide)

/-- Claim C9. The two classifiers encode one decision table: they agree on accept
versus fail, have the same whitelist effect, return the same error whenever the
transport error is non-nil, and differ only when a successful read is flagged as
forged, where the first-read message is "response is hijacked" and the follow-up
message is "content hijacked". -/
theorem C9_same_decision_table (detector : Detector) (b : List Byte) (n : Int)
    (err : Option GoError) (addr : String) (wl : Whitelist) :
    ((checkFirstRead detector b n err addr wl).1 = none
      ↔ (checkFollowupRead detector b n err addr wl).1 = none) ∧
    (checkFirstRead detector b n err addr wl).2
      = (checkFollowupRead detector b n err addr wl).2 ∧
    (err ≠ none →
      checkFirstRead detector b n err addr wl = checkFollowupRead detector b n err addr wl) ∧
    (detector.FakeResponse b = false →
      checkFirstRead detector b n err addr wl = checkFollowupRead detector b n err addr wl) ∧
    (err = none → detector.FakeResponse b = true →
      checkFirstRead detector b n err addr wl
        = (some (GoError.errorf "response is hijacked"), AddToWl addr false wl) ∧
      checkFollowupRead detector b n err addr wl
        = (some (GoError.errorf "content hijacked"), AddToWl addr false wl)) := by
  cases err with
  | none =>
    cases hf : detector.FakeResponse b <;> simp [checkFirstRead, checkFollowupRead, hf]
  | some e =>
    by_cases he : e = GoError.EOF
    · simp [checkFirstRead, checkFollowupRead, he]
    · cases ht : detector.TamperingSuspected e <;>
        simp [checkFirstRead, checkFollowupRead, he, ht]

/-! ## Dial -/

/-- Claim C7. One call of `DialDirect` delivers a `directConn` (wrapping the dialled
transport, with the given address and counter 0) exactly when the dial succeeded
and `DNSPoisoned(conn)` is false, and never more than one; it writes the whitelist
(`AddToWl(addr, false)`, after closing the transport) exactly when the dial
succeeded and `DNSPoisoned(conn)` is true; a failed dial, tampering-consistent or
not, delivers nothing and writes nothing. -/
theorem C7_dial_outcome (dial : String → String → DialResult) (detector : Detector)
    (network addr : String) (ch : List directConn) (wl : Whitelist) :
    (∀ conn, dial network addr = DialResult.ok conn → detector.DNSPoisoned conn = false →
      DialDirect dial detector network addr ch wl
        = (ch ++ [{ Conn := conn, addr := addr, readBytes := 0 }], wl, some conn)) ∧
    (∀ conn, dial network addr = DialResult.ok conn → detector.DNSPoisoned conn = true →
      DialDirect dial detector network addr ch wl
        = (ch, AddToWl addr false wl, some conn.Close)) ∧
    (∀ err, dial network addr = DialResult.failed err →
      DialDirect dial detector network addr ch wl = (ch, wl, none)) ∧
    ((DialDirect dial detector network addr ch wl).1 ≠ ch
      ↔ ∃ conn, dial network addr = DialResult.ok conn ∧ detector.DNSPoisoned conn = false) ∧
    ((DialDirect dial detector network addr ch wl).2.1 ≠ wl
      ↔ ∃ conn, dial network addr = DialResult.ok conn ∧ detector.DNSPoisoned conn = true) ∧
    (DialDirect dial detector network addr ch wl).1.length ≤ ch.length + 1 := by
  have hwl := AddToWl_ne addr false wl
  unfold DialDirect
  cases hd : dial network addr with
  | ok conn =>
    cases hp : detector.DNSPoisoned conn <;> simp [hp, hwl, append_singleton_ne]
  | failed err =>
    cases ht : detector.TamperingSuspected err <;> simp [ht]

/-! ## Close -/

/-- Claim C6. The method `Close` closes the transport unconditionally and then
executes one non-blocking send of the address on `DirectAddrCh` exactly when the
counter is positive and `wlTemporarily(addr)` is false; otherwise the channel is
untouched. The non-blocking send is dropped on a nil channel and when no receiver
is blocked and the buffer has no room (on an unbuffered channel: when no receiver
is blocked), and goes through otherwise. -/
theorem C6_close_notifies (wlT : WlQuery) (dc : directConn) (w : World) :
    (dc.Close wlT w).1 = { dc with Conn := dc.Conn.Close } ∧
    (dc.Close wlT w).1.Conn.closed = true ∧
    (dc.Close wlT w).2.whitelist = w.whitelist ∧
    ((0 < dc.readBytes ∧ wlT w.whitelist dc.addr = false) →
      (dc.Close wlT w).2.DirectAddrCh = w.DirectAddrCh.trySend dc.addr) ∧
    (¬ (0 < dc.readBytes ∧ wlT w.whitelist dc.addr = false) →
      (dc.Close wlT w).2.DirectAddrCh = w.DirectAddrCh) ∧
    ((dc.Close wlT w).2.DirectAddrCh.attempts = w.DirectAddrCh.attempts ++ [dc.addr]
      ↔ (0 < dc.readBytes ∧ wlT w.whitelist dc.addr = false)) ∧
    (∀ (c : Chan) (v : String),
      (c.isNil = true ∨ (c.recvWaiting = 0 ∧ c.cap ≤ c.buf.length)) →
        (c.trySend v).sent = c.sent) ∧
    (∀ (c : Chan) (v : String),
      (c.isNil = false ∧ (0 < c.recvWaiting ∨ c.buf.length < c.cap)) →
        (c.trySend v).sent.length = c.sent.length + 1 ∧ v ∈ (c.trySend v).sent) ∧
    (∀ (c : Chan) (v : String), c.cap = 0 → c.recvWaiting = 0 →
        (c.trySend v).sent = c.sent) := by
  have hfr := Close_frame wlT dc w
  have hch := Close_channel wlT dc w
  refine ⟨hfr.1, ?_, hfr.2, hch.1, hch.2, ?_, ?_, ?_, ?_⟩
  · rw [hfr.1]; exact NetConn.closed_Close _
  · simp only [directConn.Close]
    split
    · rename_i hc
      simp at hc
      simp [Chan.trySend, hc.1, hc.2]
      split <;> [skip; split <;> [skip; split]] <;> simp
    · rename_i hc
      simp at hc
      constructor
      · intro h
        exact absurd h.symm (append_singleton_ne _ _)
      · intro h
        exact absurd (hc h.1) (by simp [h.2])
  · intro c v h
    rcases h with h | ⟨h1, h2⟩
    · simp [Chan.trySend, Chan.sent, h]
    · simp only [Chan.trySend, Chan.sent]
      split
      · rfl
      · simp [h1, Nat.not_lt.mpr h2]
  · intro c v ⟨h1, h2⟩
    simp only [Chan.trySend, Chan.sent, h1]
    by_cases hr : 0 < c.recvWaiting
    · simp [hr]
      omega
    · have hb : c.buf.length < c.cap := by
        rcases h2 with h2 | h2
        · exact absurd h2 hr
        · exact h2
      simp [hr, hb]
      omega
  · intro c v h1 h2
    simp only [Chan.trySend, Chan.sent]
    split
    · rfl
    · simp [h1, h2]

/-- A non-blocking send is logged as one attempt and sends at most one value. -/
theorem trySend_effect (c : Chan) (v : String) :
    (c.trySend v).attempts = c.attempts ++ [v] ∧
    (c.trySend v).sent.length ≤ c.sent.length + 1 := by
  simp only [Chan.trySend, Chan.sent]
  split <;> [skip; split <;> [skip; split]] <;> simp <;> omega

/-- The claim C3 as stated fails: a connection that read 512 bytes, on an address
that is not flagged, with two receivers blocked on `DirectAddrCh`, sends its
address twice when `Close` is called twice. -/
theorem C3_double_close_sends_twice :
    (closeTwice wlTemporarilySpec dc512 (world0 2)).2.DirectAddrCh.sent
      = ["example.com:80", "example.com:80"] ∧
    (world0 2).DirectAddrCh.sent = [] ∧
    ¬ ((closeTwice wlTemporarilySpec dc512 (world0 2)).2.DirectAddrCh.sent.length
        ≤ (world0 2).DirectAddrCh.sent.length + 1) := by
  decide

/-- Claim C3, amended. Two calls of `Close` on one connection always return: the
transport receives two `Close` calls, the counter, address and whitelist are
untouched, and each call executes the non-blocking send under the same condition,
so together they log two send attempts when the counter is positive and the address
is not temporarily flagged, none otherwise, and send the address at most twice. -/
theorem C3_double_close (wlT : WlQuery) (dc : directConn) (w : World) :
    (closeTwice wlT dc w).1 = { dc with Conn := dc.Conn.Close.Close } ∧
    (closeTwice wlT dc w).2.whitelist = w.whitelist ∧
    (closeTwice wlT dc w).2.DirectAddrCh.attempts
      = w.DirectAddrCh.attempts ++
          (if 0 < dc.readBytes ∧ wlT w.whitelist dc.addr = false
            then [dc.addr, dc.addr] else []) ∧
    (closeTwice wlT dc w).2.DirectAddrCh.sent.length ≤ w.DirectAddrCh.sent.length + 2 ∧
    (¬ (0 < dc.readBytes ∧ wlT w.whitelist dc.addr = false) →
      (closeTwice wlT dc w).2.DirectAddrCh = w.DirectAddrCh) := by
  by_cases hc : 0 < dc.readBytes ∧ wlT w.whitelist dc.addr = false
  · have h1 := trySend_effect w.DirectAddrCh dc.addr
    have h2 := trySend_effect (w.DirectAddrCh.trySend dc.addr) dc.addr
    have hct : closeTwice wlT dc w
        = ({ dc with Conn := dc.Conn.Close.Close },
           { w with DirectAddrCh := (w.DirectAddrCh.trySend dc.addr).trySend dc.addr }) := by
      simp [closeTwice, directConn.Close, hc.1, hc.2]
    rw [hct]
    refine ⟨rfl, rfl, ?_, ?_, fun h => absurd hc h⟩
    · simp [hc, h1.1, h2.1]
    · have := h1.2
      have := h2.2
      show ((w.DirectAddrCh.trySend dc.addr).trySend dc.addr).sent.length ≤ _
      omega
  · have hct : closeTwice wlT dc w = ({ dc with Conn := dc.Conn.Close.Close }, w) := by
      have hc' : (decide (0 < dc.readBytes) && !wlT w.whitelist dc.addr) = false := by
        by_cases h0 : 0 < dc.readBytes
        · have : wlT w.whitelist dc.addr = true := by
            cases hw : wlT w.whitelist dc.addr
            · exact absurd ⟨h0, hw⟩ hc
            · rfl
          simp [this]
        · simp [h0]
      simp [closeTwice, directConn.Close, hc']
    rw [hct]
    simp [hc]

/-! ## Close on a failed read -/

/-- The claim C5 as stated fails: a follow-up read that returns `io.EOF` on a
connection that already read 512 bytes, on an unflagged address with a receiver
blocked on `DirectAddrCh`, makes `doRead` close the connection, and that close
sends the address. The same happens for a first-read call. -/
theorem C5_failed_read_close_notifies :
    (dc512.FollowupRead wlTemporarilySpec cleanDetector readEOF (world0 1)).1.err
      = some GoError.EOF ∧
    (dc512.FollowupRead wlTemporarilySpec cleanDetector readEOF (world0 1)).2.DirectAddrCh.sent
      = ["example.com:80"] ∧
    (dc512.FirstRead wlTemporarilySpec cleanDetector readEOF (world0 1)).2.DirectAddrCh.sent
      = ["example.com:80"] ∧
    (world0 1).DirectAddrCh.sent = [] := by
  decide

/-- Claim C5, amended. When the classification of a read (first or follow-up)
fails, `doRead` reports the failure with zero bytes and its `Close` executes the
non-blocking send of the address exactly when the counter before the read is
positive and `wlTemporarily(addr)` is false on the whitelist as the classifier
left it; when the counter is 0 or the address is temporarily flagged the channel
is untouched. -/
theorem C5_failed_read_close (wlT : WlQuery) (detector : Detector) (kind : ReadKind)
    (dc : directConn) (rd : TransportRead) (w : World) (e : GoError) (wl1 : Whitelist)
    (hfail : kind.checker detector rd.b rd.n rd.err dc.addr w.whitelist = (some e, wl1)) :
    (dc.doRead wlT detector kind.checker rd w).1.n = 0 ∧
    (dc.doRead wlT detector kind.checker rd w).1.err = some e ∧
    (dc.doRead wlT detector kind.checker rd w).1.conn.Conn = dc.Conn.Close ∧
    (dc.doRead wlT detector kind.checker rd w).2.whitelist = wl1 ∧
    ((0 < dc.readBytes ∧ wlT wl1 dc.addr = false) →
      (dc.doRead wlT detector kind.checker rd w).2.DirectAddrCh
        = w.DirectAddrCh.trySend dc.addr) ∧
    (¬ (0 < dc.readBytes ∧ wlT wl1 dc.addr = false) →
      (dc.doRead wlT detector kind.checker rd w).2.DirectAddrCh = w.DirectAddrCh) ∧
    (dc.readBytes = 0 →
      (dc.doRead wlT detector kind.checker rd w).2.DirectAddrCh = w.DirectAddrCh) := by
  have hdo : dc.doRead wlT detector kind.checker rd w
      = ({ n := 0, err := some e, conn := (dc.Close wlT { w with whitelist := wl1 }).1 },
         (dc.Close wlT { w with whitelist := wl1 }).2) := by
    simp only [directConn.doRead, hfail]
  obtain ⟨h1, h3⟩ := Close_frame wlT dc { w with whitelist := wl1 }
  obtain ⟨h4, h5⟩ := Close_channel wlT dc { w with whitelist := wl1 }
  rw [hdo]
  refine ⟨rfl, rfl, ?_, h3, h4, h5, ?_⟩
  · show (dc.Close wlT { w with whitelist := wl1 }).1.Conn = _
    rw [h1]
  · intro h0
    exact h5 (fun h => by omega)

/-- A concrete instance of the amended claim C5: a forged first read on a fresh
connection (counter 0) leaves the channel untouched. -/
theorem C5_failed_read_close_witness :
    (dc0.doRead wlTemporarilySpec alarmDetector ReadKind.first.checker read512 (world0 1)).1.n
      = 0 ∧
    (dc0.doRead wlTemporarilySpec alarmDetector ReadKind.first.checker read512 (world0 1)).1.err
      = some (GoError.errorf "response is hijacked") ∧
    (dc0.doRead wlTemporarilySpec alarmDetector ReadKind.first.checker read512
      (world0 1)).1.conn.Conn = dc0.Conn.Close ∧
    (dc0.doRead wlTemporarilySpec alarmDetector ReadKind.first.checker read512
      (world0 1)).2.whitelist = [("example.com:80", false)] ∧
    ((0 < dc0.readBytes ∧ wlTemporarilySpec [("example.com:80", false)] dc0.addr = false) →
      (dc0.doRead wlTemporarilySpec alarmDetector ReadKind.first.checker read512
        (world0 1)).2.DirectAddrCh = (world0 1).DirectAddrCh.trySend dc0.addr) ∧
    (¬ (0 < dc0.readBytes ∧ wlTemporarilySpec [("example.com:80", false)] dc0.addr = false) →
      (dc0.doRead wlTemporarilySpec alarmDetector ReadKind.first.checker read512
        (world0 1)).2.DirectAddrCh = (world0 1).DirectAddrCh) ∧
    (dc0.readBytes = 0 →
      (dc0.doRead wlTemporarilySpec alarmDetector ReadKind.first.checker read512
        (world0 1)).2.DirectAddrCh = (world0 1).DirectAddrCh) :=
  C5_failed_read_close wlTemporarilySpec alarmDetector ReadKind.first dc0 read512 (world0 1)
    (GoError.errorf "response is hijacked") [("example.com:80", false)] rfl

/-! ## Which bytes the forged-response check sees -/

/-- Claim C10 fails on the code: both classifiers hand the whole buffer `b` to
`FakeResponse`, not `b[:n]`. Two successful one-byte reads whose buffers agree on
the received byte and differ only in the stale byte after it are classified
differently by a detector that looks for a marker byte: one is rejected as forged
with a whitelist write, the other accepted. -/
theorem C10_stale_bytes_decide :
    List.take 1 bufStaleMarker = List.take 1 bufStaleZero ∧
    checkFirstRead markerDetector bufStaleMarker 1 none "example.com:80" []
      = (some (GoError.errorf "response is hijacked"), [("example.com:80", false)]) ∧
    checkFirstRead markerDetector bufStaleZero 1 none "example.com:80" [] = (none, []) ∧
    checkFollowupRead markerDetector bufStaleMarker 1 none "example.com:80" []
      = (some (GoError.errorf "content hijacked"), [("example.com:80", false)]) ∧
    checkFollowupRead markerDetector bufStaleZero 1 none "example.com:80" [] = (none, []) := by
  decide

/-! ## The cumulative byte counter -/

/-- The conversion `uint64(n)` keeps a byte count that is non-negative and fits. -/
theorem uint64_of_nonneg (n : Int) (h0 : 0 ≤ n) (h1 : n < 2 ^ 64) :
    ((uint64 n : Nat) : Int) = n := by
  unfold uint64 uint64Mod
  have hm : n % ((2 ^ 64 : Nat) : Int) = n := Int.emod_eq_of_lt h0 (by exact_mod_cast h1)
  rw [hm]
  exact Int.toNat_of_nonneg h0

/-- One read request: the address is kept, and the counter is advanced by
`uint64(n)` (wrapping) when the classifier accepted and is unchanged when it failed. -/
theorem read_counter (wlT : WlQuery) (dc : directConn) (ev : ReadEvent) (w : World) :
    (dc.read wlT ev w).1.conn.addr = dc.addr ∧
    (dc.read wlT ev w).1.conn.readBytes
      = if (ev.classify dc.addr w.whitelist).1 = none
          then AddUint64 dc.readBytes (uint64 ev.rd.n) else dc.readBytes := by
  unfold directConn.read directConn.doRead ReadEvent.classify
  generalize ev.kind.checker ev.detector ev.rd.b ev.rd.n ev.rd.err dc.addr w.whitelist = res
  obtain ⟨o, wl1⟩ := res
  cases o with
  | none => simp
  | some e =>
    have h := (Close_frame wlT dc { w with whitelist := wl1 }).1
    simp [h]

/-- The counter trace of a sequence starts with the current counter value. -/
theorem counterTrace_head (wlT : WlQuery) (evs : List ReadEvent) (dc : directConn)
    (w : World) : (counterTrace wlT evs dc w).head? = some dc.readBytes := by
  cases evs <;> simp [counterTrace]

/-- The sum of accepted byte counts is non-negative when every count is. -/
theorem acceptedSum_nonneg (wlT : WlQuery) (evs : List ReadEvent) :
    ∀ (dc : directConn) (w : World), (∀ ev ∈ evs, 0 ≤ ev.rd.n) →
      0 ≤ acceptedSum wlT evs dc w := by
  induction evs with
  | nil => intro dc w _; simp [acceptedSum]
  | cons ev rest ih =>
    intro dc w hn
    have hrest := ih (dc.read wlT ev w).1.conn (dc.read wlT ev w).2
      (fun e he => hn e (List.mem_cons_of_mem _ he))
    have hev := hn ev (List.mem_cons_self _ _)
    simp only [acceptedSum]
    split <;> omega

/-- From any counter value: as long as the counter plus the accepted byte counts
stays below `2^64`, the final counter is that sum and the trace never decreases. -/
theorem runReads_counter (wlT : WlQuery) (evs : List ReadEvent) :
    ∀ (dc : directConn) (w : World), (∀ ev ∈ evs, 0 ≤ ev.rd.n) →
      (dc.readBytes : Int) + acceptedSum wlT evs dc w < 2 ^ 64 →
      ((runReads wlT evs dc w).1.readBytes : Int)
          = (dc.readBytes : Int) + acceptedSum wlT evs dc w ∧
        List.Chain' (fun x y => x ≤ y) (counterTrace wlT evs dc w) := by
  induction evs with
  | nil => intro dc w _ _; simp [runReads, acceptedSum, counterTrace]
  | cons ev rest ih =>
    intro dc w hn hsum
    have hnrest : ∀ e ∈ rest, 0 ≤ e.rd.n := fun e he => hn e (List.mem_cons_of_mem _ he)
    have hev := hn ev (List.mem_cons_self _ _)
    have hS := acceptedSum_nonneg wlT rest (dc.read wlT ev w).1.conn (dc.read wlT ev w).2 hnrest
    have hrc := (read_counter wlT dc ev w).2
    have hih := ih (dc.read wlT ev w).1.conn (dc.read wlT ev w).2 hnrest
    have hhd := counterTrace_head wlT rest (dc.read wlT ev w).1.conn (dc.read wlT ev w).2
    simp only [acceptedSum] at hsum
    simp only [runReads, acceptedSum, counterTrace, List.chain'_cons', hhd,
      Option.mem_def, Option.some.injEq, forall_eq']
    by_cases hacc : (ev.classify dc.addr w.whitelist).1 = none
    · simp only [hacc, if_true] at hsum hrc ⊢
      have hu := uint64_of_nonneg ev.rd.n hev (by omega)
      have hc : (((dc.read wlT ev w).1.conn.readBytes : Nat) : Int)
          = (dc.readBytes : Int) + ev.rd.n := by
        rw [hrc, AddUint64, uint64Mod]
        have hlt : dc.readBytes + uint64 ev.rd.n < 2 ^ 64 := by
          have : ((dc.readBytes + uint64 ev.rd.n : Nat) : Int) < 2 ^ 64 := by
            push_cast; omega
          exact_mod_cast this
        rw [Nat.mod_eq_of_lt hlt]
        push_cast
        omega
      obtain ⟨h1, h2⟩ := hih (by omega)
      refine ⟨by omega, ?_, h2⟩
      have : ((dc.readBytes : Nat) : Int) ≤ ((dc.read wlT ev w).1.conn.readBytes : Nat) := by
        omega
      exact_mod_cast this
    · simp only [hacc, if_false] at hsum hrc ⊢
      obtain ⟨h1, h2⟩ := hih (by rw [hrc]; omega)
      refine ⟨by rw [h1, hrc]; omega, ?_, h2⟩
      rw [hrc]

/-- A clean one-GiB follow-up read is accepted: it adds `2^30` to the counter
(wrapping at `2^64`) and leaves the world as it was. -/
theorem read_evGiB (wlT : WlQuery) (dc : directConn) (w : World) :
    dc.read wlT evGiB w
      = ({ n := 2 ^ 30, err := none,
           conn := { dc with readBytes := (dc.readBytes + 2 ^ 30) % 2 ^ 64 } }, w) := by
  have hu : uint64 (2 ^ 30) = 2 ^ 30 := by decide
  simp only [directConn.read, directConn.doRead, evGiB, ReadKind.checker, checkFollowupRead,
    cleanDetector, AddUint64, uint64Mod, hu]
  rfl

/-- Unfolding of `runReads` on a non-empty sequence. -/
theorem runReads_cons (wlT : WlQuery) (ev : ReadEvent) (evs : List ReadEvent)
    (dc : directConn) (w : World) :
    runReads wlT (ev :: evs) dc w
      = runReads wlT evs (dc.read wlT ev w).1.conn (dc.read wlT ev w).2 := rfl

/-- After `k` clean one-GiB reads the counter holds `k * 2^30` more, modulo `2^64`. -/
theorem runReads_evGiB (wlT : WlQuery) (k : Nat) :
    ∀ (dc : directConn) (w : World), dc.readBytes < 2 ^ 64 →
      runReads wlT (List.replicate k evGiB) dc w
        = ({ dc with readBytes := (dc.readBytes + k * 2 ^ 30) % 2 ^ 64 }, w) := by
  induction k with
  | zero =>
    intro dc w hlt
    show (dc, w) = _
    rw [Nat.zero_mul, Nat.add_zero, Nat.mod_eq_of_lt hlt]
  | succ k ih =>
    intro dc w hlt
    rw [List.replicate_succ, runReads_cons, read_evGiB]
    show runReads wlT (List.replicate k evGiB)
      { dc with readBytes := (dc.readBytes + 2 ^ 30) % 2 ^ 64 } w = _
    rw [ih _ w (Nat.mod_lt _ (by norm_num))]
    have harith : ((dc.readBytes + 2 ^ 30) % 2 ^ 64 + k * 2 ^ 30) % 2 ^ 64
        = (dc.readBytes + (k + 1) * 2 ^ 30) % 2 ^ 64 := by
      rw [Nat.add_mod, Nat.mod_mod, ← Nat.add_mod]
      congr 1
      ring
    show ({ dc with readBytes := ((dc.readBytes + 2 ^ 30) % 2 ^ 64 + k * 2 ^ 30) % 2 ^ 64 }, w)
      = _
    rw [harith]

/-- The accepted byte counts of `k` clean one-GiB reads add up to `k * 2^30`. -/
theorem acceptedSum_evGiB (wlT : WlQuery) (k : Nat) :
    ∀ (dc : directConn) (w : World),
      acceptedSum wlT (List.replicate k evGiB) dc w = (k : Int) * 2 ^ 30 := by
  induction k with
  | zero => intro dc w; simp [acceptedSum]
  | succ k ih =>
    intro dc w
    rw [List.replicate_succ]
    simp only [acceptedSum, read_evGiB, ih]
    have hacc : (evGiB.classify dc.addr w.whitelist).1 = none := rfl
    have hn : evGiB.rd.n = 2 ^ 30 := rfl
    rw [if_pos hacc, hn]
    push_cast
    ring

/-- The claim C2 as stated fails: `readBytes` is a `uint64` updated with a wrapping
add. After `2^34` clean reads of one GiB each (every one respecting the `io.Reader`
contract) on a fresh connection, the accepted byte counts add up to `2^64` while
the counter is 0; it was `2^64 - 2^30` one read earlier, so the last accepted read
made it decrease. -/
theorem C2_counter_wraps :
    (∀ ev ∈ List.replicate (2 ^ 34) evGiB, ev.rd.valid) ∧
    acceptedSum wlTemporarilySpec (List.replicate (2 ^ 34) evGiB) dc0 (world0 0) = 2 ^ 64 ∧
    (runReads wlTemporarilySpec (List.replicate (2 ^ 34) evGiB) dc0 (world0 0)).1.readBytes
      = 0 ∧
    (runReads wlTemporarilySpec (List.replicate (2 ^ 34 - 1) evGiB) dc0 (world0 0)).1.readBytes
      = 2 ^ 64 - 2 ^ 30 ∧
    ¬ (((runReads wlTemporarilySpec (List.replicate (2 ^ 34) evGiB) dc0
          (world0 0)).1.readBytes : Int)
        = acceptedSum wlTemporarilySpec (List.replicate (2 ^ 34) evGiB) dc0 (world0 0)) := by
  have h0 : dc0.readBytes < 2 ^ 64 := by
    show (0 : Nat) < 2 ^ 64
    norm_num
  have hsum := acceptedSum_evGiB wlTemporarilySpec (2 ^ 34) dc0 (world0 0)
  have hrun := runReads_evGiB wlTemporarilySpec (2 ^ 34) dc0 (world0 0) h0
  have hrun1 := runReads_evGiB wlTemporarilySpec (2 ^ 34 - 1) dc0 (world0 0) h0
  have hfin : (runReads wlTemporarilySpec (List.replicate (2 ^ 34) evGiB) dc0
      (world0 0)).1.readBytes = 0 := by
    rw [hrun]
    show (0 + 2 ^ 34 * 2 ^ 30) % 2 ^ 64 = 0
    norm_num
  refine ⟨?_, ?_, hfin, ?_, ?_⟩
  · intro ev hev
    rw [List.eq_of_mem_replicate hev]
    show (0 : Int) ≤ 2 ^ 30 ∧ (2 ^ 30 : Int) ≤ ((List.replicate (2 ^ 30) (0 : Byte)).length : Int)
    rw [List.length_replicate]
    constructor <;> norm_num
  · rw [hsum]
    norm_num
  · rw [hrun1]
    show (0 + (2 ^ 34 - 1) * 2 ^ 30) % 2 ^ 64 = 2 ^ 64 - 2 ^ 30
    norm_num
  · rw [hfin, hsum]
    norm_num

/-- Claim C2, amended. Starting from the counter value 0 set at dial, for every
sequence of first and follow-up reads whose byte counts are non-negative and whose
accepted byte counts add up to less than `2^64`: the counter after the sequence
equals the sum of the byte counts of exactly the accepted reads, and the counter
never decreases along the sequence. Without any condition, a read whose classifier
returned an error leaves the counter unchanged. -/
theorem C2_counter_sum (wlT : WlQuery) (evs : List ReadEvent) (dc : directConn) (w : World)
    (h0 : dc.readBytes = 0) (hn : ∀ ev ∈ evs, 0 ≤ ev.rd.n)
    (hsum : acceptedSum wlT evs dc w < 2 ^ 64) :
    ((runReads wlT evs dc w).1.readBytes : Int) = acceptedSum wlT evs dc w ∧
    List.Chain' (fun x y => x ≤ y) (counterTrace wlT evs dc w) ∧
    (∀ (dc1 : directConn) (ev : ReadEvent) (w1 : World),
      (ev.classify dc1.addr w1.whitelist).1 ≠ none →
        (dc1.read wlT ev w1).1.conn.readBytes = dc1.readBytes) := by
  have h := runReads_counter wlT evs dc w hn (by rw [h0]; simpa using hsum)
  refine ⟨?_, h.2, ?_⟩
  · rw [h.1, h0]
    simp
  · intro dc1 ev w1 hrej
    rw [(read_counter wlT dc1 ev w1).2, if_neg hrej]

/-- A concrete instance of the amended claim C2: one clean 512-byte first read on a
fresh connection reports (512, no error) and the counter becomes 512. -/
theorem C2_counter_sum_witness :
    (dc0.read wlTemporarilySpec ev512 (world0 1)).1.n = 512 ∧
    (dc0.read wlTemporarilySpec ev512 (world0 1)).1.err = none ∧
    (runReads wlTemporarilySpec [ev512] dc0 (world0 1)).1.readBytes = 512 ∧
    acceptedSum wlTemporarilySpec [ev512] dc0 (world0 1) = 512 ∧
    (((runReads wlTemporarilySpec [ev512] dc0 (world0 1)).1.readBytes : Int)
        = acceptedSum wlTemporarilySpec [ev512] dc0 (world0 1) ∧
      List.Chain' (fun x y => x ≤ y) (counterTrace wlTemporarilySpec [ev512] dc0 (world0 1)) ∧
      (∀ (dc1 : directConn) (ev : ReadEvent) (w1 : World),
        (ev.classify dc1.addr w1.whitelist).1 ≠ none →
          (dc1.read wlTemporarilySpec ev w1).1.conn.readBytes = dc1.readBytes)) :=
  ⟨rfl, rfl, rfl, rfl,
    C2_counter_sum wlTemporarilySpec [ev512] dc0 (world0 1) rfl
      (by intro ev hev; rw [List.mem_singleton.mp hev]; decide) (by decide)⟩

end Detour
